import Mathlib

/-!
Verification of the EM6400NG RS-485 reader's register-polling core.

Shallow embedding of `src/em6400ng_gui.py`: the register data model
(`RegItem`), the float32 word decoder (`decode_float32`), the connect-time
validation (`_connect`), the poll-interval and slave-id parsing
(`_poll_loop`, `_poll_once`), the per-register poll cycle (`_poll_once`),
and the disconnect state change (`_disconnect`).

Python strings parsed with `int(...)` are modelled as `Option Int` (the
result of the parse: `none` when `int(...)` raises). Python's `& 0xFFFF`
on an arbitrary integer equals `Int.emod · 65536` (both yield the
nonnegative low 16 bits). `struct.unpack(">f", struct.pack(">I", raw))`
is a bit-for-bit reinterpretation of the 32-bit pattern `raw` as an
IEEE-754 single-precision float; since that reinterpretation is a
bijection on bit patterns, the decoder model returns the 32-bit pattern
itself, and `float32ValueOfBits` gives the numeric (rational) value of a
pattern for the claims that speak about the decoded number.
-/

namespace EM6400NG

/-- Register model, from the `RegItem` dataclass (lines 17-29): vendor
1-based `offset`, display `name` and `unit`, function code `fc`
(4 = input, 3 = holding), data type, word `count` (float32 = 2 registers)
and a `scale` multiplier (Python float, modelled as a rational). -/
structure RegItem where
  offset : Int
  name : String
  unit : String
  fc : Int := 4
  dtype : String := "float32"
  count : Int := 2
  scale : ℚ := 1
deriving Repr, DecidableEq

/-- Derived wire address, from the `address` property: `self.offset - 1`.
As in the source it is a function of `offset` (a `@property`), never a
stored field. -/
def RegItem.address (r : RegItem) : Int := r.offset - 1

/-- Decoder, from `decode_float32` (lines 58-67). The source returns
`None` when the list has fewer than two entries; otherwise it masks
`regs[0]` and `regs[1]` to 16 bits (`int(...) & 0xFFFF`, i.e.
`Int.emod · 65536`), swaps the two words when `swap_words` is set, and
reassembles `raw = (hi << 16) | lo`, which it reinterprets bit-for-bit
as an IEEE-754 float32. The model returns the 32-bit pattern `raw`
(the reinterpretation being a bijection on patterns); entries past the
first two are ignored, exactly as in the source. -/
def decode_float32 (regs : List Int) (swap_words : Bool) : Option Nat :=
  match regs with
  | r0 :: r1 :: _ =>
      let hi0 := (r0 % 65536).toNat
      let lo0 := (r1 % 65536).toNat
      let hi := if swap_words then lo0 else hi0
      let lo := if swap_words then hi0 else lo0
      some ((hi <<< 16) ||| lo)
  | _ => none

/-- Numeric value of an IEEE-754 binary32 bit pattern, as a rational:
sign bit, 8 exponent bits, 23 mantissa bits; `none` for the exponent-255
patterns (infinities and NaNs, which have no numeric value). -/
def float32ValueOfBits (bits : Nat) : Option ℚ :=
  let sign : ℕ := bits / 2 ^ 31
  let expo : ℕ := bits / 2 ^ 23 % 2 ^ 8
  let mant : ℕ := bits % 2 ^ 23
  if expo = 255 then none
  else
    let mag : ℚ :=
      if expo = 0 then (mant : ℚ) / 2 ^ 23 / 2 ^ 126
      else ((2 ^ 23 + mant : ℕ) : ℚ) / 2 ^ 23 *
        (if 127 ≤ expo then (2 : ℚ) ^ (expo - 127) else 1 / 2 ^ (127 - expo))
    some (if sign = 1 then -mag else mag)

/-- Reassembling two 16-bit fields with shift-and-or is plain arithmetic. -/
lemma shiftOr_eq_mul_add (hi lo : Nat) (hlo : lo < 65536) :
    (hi <<< 16) ||| lo = hi * 65536 + lo := by
  have h := Nat.mul_add_lt_is_or (i := 16) (a := hi) (by simpa using hlo)
  rw [Nat.shiftLeft_eq, Nat.mul_comm hi (2 ^ 16), ← h]

/-- Outcome of the connect-time validation in `_connect` (lines 265-301):
either a configuration error shown to the user (the function returns
before any transport is constructed), or the validated parameters with
which `ModbusSerialClient` is then opened. -/
inductive ConnectOutcome where
  | configError (msg : String)
  | openTransport (port : List Char) (baud slave : Int) (parity : List Char)
deriving Repr, DecidableEq

/-- Baud rates offered by the baud combobox (line 166):
`["4800", "9600", "19200", "38400"]`. -/
def supportedBauds : List Int := [4800, 9600, 19200, 38400]

/-- Python's `str.strip()` on a string modelled as its character list:
drop whitespace from both ends. -/
def pyStrip (s : List Char) : List Char :=
  ((s.dropWhile Char.isWhitespace).reverse.dropWhile Char.isWhitespace).reverse

/-- Python's `str.upper()` on a string modelled as its character list. -/
def pyUpper (s : List Char) : List Char := s.map Char.toUpper

/-- Validation performed by `_connect` before the transport is opened
(lines 269-286): the stripped port must be non-empty; `int(baud)` and
`int(slave)` must parse (modelled as `Option Int` parse results) and the
slave id must lie in 1..247, else the "Invalid settings" error; the
stripped upper-cased parity must be E, O or N. Only when all checks pass
is `ModbusSerialClient` constructed (`openTransport`). Text fields are
modelled as character lists. -/
def connectValidate (portField : List Char) (baudField slaveField : Option Int)
    (parityField : List Char) : ConnectOutcome :=
  let port := pyStrip portField
  if port = [] then .configError "Select a serial port."
  else
    match baudField, slaveField with
    | some baud, some slave =>
        if 1 ≤ slave ∧ slave ≤ 247 then
          let parity := pyUpper (pyStrip parityField)
          if parity = ['E'] ∨ parity = ['O'] ∨ parity = ['N'] then
            .openTransport port baud slave parity
          else .configError "Parity must be E, O, or N."
        else .configError "Invalid settings: Slave ID must be 1..247"
    | _, _ => .configError "Invalid settings"

/-- Poll interval used for a cycle's delay, from the head of `_poll_loop`
(lines 330-335): `int(self.poll_ms_var.get())` with values below 200
clamped up to 200, and any parse failure falling back to 1000. The field's
parse result is the `Option Int` argument. -/
def effectivePollMs (field : Option Int) : Int :=
  match field with
  | none => 1000
  | some n => if n < 200 then 200 else n

/-- Slave id used by a poll cycle, from the head of `_poll_once`
(lines 343-346): `int(self.slave_var.get())` with any parse failure
falling back to 1. -/
def effectiveSlave (field : Option Int) : Int := field.getD 1

/-- Result of one transport read call in `_poll_once`: a pymodbus response
(with its `isError()` flag and its `registers` list), or a raised Python
exception (the `except` arm of the per-register `try`). -/
inductive RawResponse where
  | response (isError : Bool) (registers : List Int)
  | exn (msg : String)
deriving Repr, DecidableEq

/-- The transport client as `_poll_once` uses it: `read_holding_registers`
(for fc 3) and `read_input_registers` (otherwise), each taking address,
count and slave id. -/
structure Transport where
  read_holding_registers : Int → Int → Int → RawResponse
  read_input_registers : Int → Int → Int → RawResponse

/-- Text published into a register's table cell by `_poll_once`
(lines 357-364): `"ERR"` when `rr.isError()`, `"EXC"` when the
per-register `try` caught an exception, `"N/A"` when the decoder returned
`None`, otherwise the formatted number `f"{v * reg.scale:.4f}"` — the
numeric case carries the decoded 32-bit pattern; the display formatting
itself is presentation-only. -/
inductive ValTxt where
  | errTxt
  | excTxt
  | naTxt
  | okTxt (bits : Nat)
deriving Repr, DecidableEq

/-- One read call for one register, from the dispatch in `_poll_once`
(lines 352-355): holding registers when `reg.fc == 3`, input registers
otherwise, at `reg.address` for `reg.count` words. -/
def respOf (t : Transport) (slave : Int) (reg : RegItem) : RawResponse :=
  if reg.fc = 3 then t.read_holding_registers reg.address reg.count slave
  else t.read_input_registers reg.address reg.count slave

/-- Cell value produced for one register in one cycle, from the body of
the per-register loop in `_poll_once` (lines 351-368). -/
def pollCell (t : Transport) (slave : Int) (swap : Bool) (reg : RegItem) : ValTxt :=
  match respOf t slave reg with
  | .exn _ => .excTxt
  | .response true _ => .errTxt
  | .response false ws =>
      match decode_float32 ws swap with
      | none => .naTxt
      | some bits => .okTxt bits

/-- The `for idx, reg in enumerate(self.regs)` loop of `_poll_once`:
one `(idx, cell)` pair per register, in list order, starting at `idx`. -/
def pollCells (t : Transport) (slave : Int) (swap : Bool) :
    Nat → List RegItem → List (Nat × ValTxt)
  | _, [] => []
  | idx, reg :: rest =>
      (idx, pollCell t slave swap reg) :: pollCells t slave swap (idx + 1) rest

/-- One poll cycle, from `_poll_once` (lines 342-368): parse the slave-id
field (fallback 1), then publish one result per register in register-map
order. -/
def pollOnce (t : Transport) (slaveField : Option Int) (swap : Bool)
    (regs : List RegItem) : List (Nat × ValTxt) :=
  pollCells t (effectiveSlave slaveField) swap 0 regs

/-- Session flags of the GUI object relevant to `_disconnect`:
`polling` and `connected` (lines 113-114), `clientOpen` for
`self.client` being a live client, and `loopActive` for the background
poll thread still running its `while self.polling` loop. -/
structure SessionState where
  polling : Bool
  connected : Bool
  clientOpen : Bool
  loopActive : Bool
deriving Repr, DecidableEq

/-- State effect of `_disconnect` (lines 313-326): clear `polling`, sleep
a fixed 0.1 s, close and drop the client, clear `connected`. The sleep
does not wait for the poll thread (`self.poll_thread` is never joined),
so `loopActive` is unchanged. -/
def disconnect (s : SessionState) : SessionState :=
  { s with polling := false, clientOpen := false, connected := false }

/-- Top-of-loop check of `_poll_loop` (line 329): the background thread
exits its `while self.polling` loop only when it next observes
`polling = false`. -/
def loopCheck (s : SessionState) : SessionState :=
  if s.polling then s else { s with loopActive := false }

/-- Register of the decode scenario: offset 3053, function code 4,
scale 1. -/
def sampleReg : RegItem :=
  { offset := 3053, name := "Active power total", unit := "kW", fc := 4 }

/-- Reassembled patterns of two 16-bit fields are 32-bit patterns. -/
lemma shiftOr_lt (hi lo : Nat) (hhi : hi < 65536) (hlo : lo < 65536) :
    (hi <<< 16) ||| lo < 2 ^ 32 := by
  rw [shiftOr_eq_mul_add _ _ hlo]
  omega

/-- Masking an integer to 16 bits yields a value below 2^16. -/
lemma emod_toNat_lt (x : Int) : (x % 65536).toNat < 65536 := by
  have h1 : 0 ≤ x % 65536 := Int.emod_nonneg x (by norm_num)
  have h2 : x % 65536 < 65536 := Int.emod_lt_of_pos x (by norm_num)
  omega

/-- Masking a natural below 2^16 is the identity. -/
lemma toNat_emod_coe (n : Nat) (hn : n < 65536) :
    ((n : Int) % 65536).toNat = n := by
  rw [Int.emod_eq_of_lt (by exact_mod_cast Nat.zero_le n) (by exact_mod_cast hn)]
  simp

/-- C2: splitting any 32-bit pattern into its big-endian high and low
16-bit words and decoding with `swap_words = false` returns the original
pattern (hence, after the bijective bit reinterpretation, the original
float bit-for-bit, NaN payloads included); decoding the pre-swapped word
pair with `swap_words = true` also returns the original. -/
theorem decode_float32_roundtrip (x : Nat) (hx : x < 2 ^ 32) :
    decode_float32 [((x / 65536 : Nat) : Int), ((x % 65536 : Nat) : Int)] false = some x ∧
    decode_float32 [((x % 65536 : Nat) : Int), ((x / 65536 : Nat) : Int)] true = some x := by
  have hdiv : x / 65536 < 65536 := by omega
  have hmod : x % 65536 < 65536 := by omega
  have h1 := toNat_emod_coe _ hdiv
  have h2 := toNat_emod_coe _ hmod
  constructor
  · have hd : decode_float32 [((x / 65536 : Nat) : Int), ((x % 65536 : Nat) : Int)] false
        = some ((((x / 65536 : Nat) : Int) % 65536).toNat <<< 16 |||
            (((x % 65536 : Nat) : Int) % 65536).toNat) := rfl
    rw [hd, h1, h2, shiftOr_eq_mul_add _ _ hmod]
    exact congrArg some (by omega)
  · have hd : decode_float32 [((x % 65536 : Nat) : Int), ((x / 65536 : Nat) : Int)] true
        = some ((((x / 65536 : Nat) : Int) % 65536).toNat <<< 16 |||
            (((x % 65536 : Nat) : Int) % 65536).toNat) := rfl
    rw [hd, h1, h2, shiftOr_eq_mul_add _ _ hmod]
    exact congrArg some (by omega)

/-- Witness for C2 at the quiet-NaN pattern 0x7FC00001. -/
theorem decode_float32_roundtrip_witness :
    (0x7FC00001 : Nat) < 2 ^ 32 ∧
    (decode_float32 [((0x7FC00001 / 65536 : Nat) : Int), ((0x7FC00001 % 65536 : Nat) : Int)]
        false = some 0x7FC00001 ∧
      decode_float32 [((0x7FC00001 % 65536 : Nat) : Int), ((0x7FC00001 / 65536 : Nat) : Int)]
        true = some 0x7FC00001) :=
  ⟨by norm_num, decode_float32_roundtrip 0x7FC00001 (by norm_num)⟩

/-- C9: the decoder uses only the low 16 bits of each supplied word
(each is masked with 0xFFFF, i.e. reduced mod 2^16, before reassembly),
and whatever it returns is a well-formed 32-bit pattern. -/
theorem decode_float32_mask_16bit (a b : Int) (swap : Bool) :
    decode_float32 [a, b] swap = decode_float32 [a % 65536, b % 65536] swap ∧
    (decode_float32 [a, b] swap).getD 0 < 2 ^ 32 := by
  constructor
  · have ha : (a % 65536) % 65536 = a % 65536 := Int.emod_emod_of_dvd a dvd_rfl
    have hb : (b % 65536) % 65536 = b % 65536 := Int.emod_emod_of_dvd b dvd_rfl
    cases swap <;> simp [decode_float32, ha, hb]
  · cases swap <;>
      exact shiftOr_lt _ _ (emod_toNat_lt _) (emod_toNat_lt _)

/-- C3 counterexample: a three-word input (length ≠ 2) is not rejected —
the decoder succeeds on the first two words instead of returning the
`DecodeError` (`None`) the claim requires for any length other than 2. -/
theorem decode_float32_three_words_decodes :
    ([(0x4248 : Int), 0xF5C3, 0]).length ≠ 2 ∧
    decode_float32 [(0x4248 : Int), 0xF5C3, 0] false = some 0x4248F5C3 := by
  refine ⟨by decide, ?_⟩
  rfl

/-- C3 amended: fewer than two words always yields `None` (the
`DecodeError` case) and never a crash; with two or more words the decode
always succeeds, using exactly the first two words (surplus words are
ignored, not rejected) and producing a 32-bit pattern. -/
theorem decode_float32_length_cases (regs : List Int) (swap : Bool) :
    (regs.length < 2 → decode_float32 regs swap = none) ∧
    (2 ≤ regs.length →
      decode_float32 regs swap = decode_float32 (regs.take 2) swap ∧
      ∃ v, decode_float32 regs swap = some v ∧ v < 2 ^ 32) := by
  match regs with
  | [] => exact ⟨fun _ => rfl, fun h => absurd h (by decide)⟩
  | [a] => exact ⟨fun _ => rfl, fun h => absurd h (by simp at h)⟩
  | a :: b :: rest =>
      refine ⟨fun h => ?_, fun _ => ⟨rfl, ?_⟩⟩
      · rw [List.length_cons, List.length_cons] at h
        omega
      · cases swap <;>
          exact ⟨_, rfl, shiftOr_lt _ _ (emod_toNat_lt _) (emod_toNat_lt _)⟩

/-- Witness for the amended C3: a one-word input decodes to `None`, and a
three-word input decodes exactly as its first two words do. -/
theorem decode_float32_length_cases_witness :
    decode_float32 [(5 : Int)] false = none ∧
    decode_float32 [(1 : Int), 2, 3] true = decode_float32 ([(1 : Int), 2, 3].take 2) true :=
  ⟨(decode_float32_length_cases [(5 : Int)] false).1 (by decide),
    ((decode_float32_length_cases [(1 : Int), 2, 3] true).2 (by decide)).1⟩

/-- C4: for every register definition with offset ≥ 1 the wire address is
`offset - 1`; in the embedding, as in the source's `@property`, `address`
is recomputed from `offset` and never stored independently. -/
theorem address_eq_offset_sub_one (r : RegItem) (_h : 1 ≤ r.offset) :
    r.address = r.offset - 1 := rfl

/-- Witness for C4 at the offset-3053 register. -/
theorem address_eq_offset_sub_one_witness :
    1 ≤ sampleReg.offset ∧ sampleReg.address = sampleReg.offset - 1 :=
  ⟨by decide, address_eq_offset_sub_one sampleReg (by decide)⟩

/-- C5: an unparsable poll-interval field yields the 1000 ms default;
a parsed value is clamped up to the 200 ms floor (never rejected), i.e.
the scheduled interval is `max 200 n`; in particular 50 ms becomes
200 ms. -/
theorem effectivePollMs_clamps :
    effectivePollMs none = 1000 ∧
    (∀ n : Int, effectivePollMs (some n) = max 200 n) ∧
    effectivePollMs (some 50) = 200 := by
  refine ⟨rfl, fun n => ?_, rfl⟩
  simp only [effectivePollMs]
  split <;> omega

/-- Cycle output has one entry per register. -/
lemma pollCells_length (t : Transport) (s : Int) (w : Bool) (regs : List RegItem) :
    ∀ n, (pollCells t s w n regs).length = regs.length := by
  induction regs with
  | nil => intro n; rfl
  | cons r rest ih => intro n; simp [pollCells, ih]

/-- Entry `j` of the cycle output is the cell of register `j`, tagged with
its running index. -/
lemma pollCells_get (t : Transport) (s : Int) (w : Bool) :
    ∀ (regs : List RegItem) (n j : Nat) (hj : j < regs.length)
      (hj' : j < (pollCells t s w n regs).length),
      (pollCells t s w n regs).get ⟨j, hj'⟩ =
        (n + j, pollCell t s w (regs.get ⟨j, hj⟩)) := by
  intro regs
  induction regs with
  | nil => intro n j hj _; exact absurd hj (Nat.not_lt_zero j)
  | cons r rest ih =>
      intro n j hj hj'
      cases j with
      | zero => rfl
      | succ j =>
          have h1 : j < rest.length := by
            rw [List.length_cons] at hj
            omega
          have h2 : j < (pollCells t s w (n + 1) rest).length := by
            rw [pollCells_length]
            exact h1
          have hstep : (pollCells t s w n (r :: rest)).get ⟨j + 1, hj'⟩ =
              (pollCells t s w (n + 1) rest).get ⟨j, h2⟩ := rfl
          rw [hstep, ih (n + 1) j h1 h2]
          have hreg : (r :: rest).get ⟨j + 1, hj⟩ = rest.get ⟨j, h1⟩ := rfl
          rw [hreg]
          congr 1
          omega

/-- Unfolding of one poll cycle. -/
lemma pollOnce_eq (t : Transport) (sf : Option Int) (w : Bool) (regs : List RegItem) :
    pollOnce t sf w regs = pollCells t (effectiveSlave sf) w 0 regs := rfl

/-- A cycle publishes exactly one result per register. -/
lemma pollOnce_length (t : Transport) (sf : Option Int) (w : Bool) (regs : List RegItem) :
    (pollOnce t sf w regs).length = regs.length :=
  pollCells_length t (effectiveSlave sf) w regs 0

/-- A register whose read errors is published as `"ERR"`. -/
lemma pollCell_err (t : Transport) (s : Int) (w : Bool) (reg : RegItem)
    (m : List Int) (h : respOf t s reg = .response true m) :
    pollCell t s w reg = .errTxt := by
  simp [pollCell, h]

/-- A register whose read succeeds is published as a decode outcome,
never as `"ERR"` or `"EXC"`. -/
lemma pollCell_ok (t : Transport) (s : Int) (w : Bool) (reg : RegItem)
    (ws : List Int) (h : respOf t s reg = .response false ws) :
    pollCell t s w reg ≠ .errTxt ∧ pollCell t s w reg ≠ .excTxt := by
  simp only [pollCell, h]
  cases decode_float32 ws w <;> simp

/-- Lists whose predicate holds at exactly one position have count one. -/
lemma countP_eq_one_of_unique {α : Type _} (p : α → Bool) :
    ∀ (l : List α) (i : Nat), i < l.length →
      (∀ j (hj : j < l.length), (p (l.get ⟨j, hj⟩) = true ↔ j = i)) →
      l.countP p = 1 := by
  intro l
  induction l with
  | nil => intro i hi _; exact absurd hi (Nat.not_lt_zero i)
  | cons a l ih =>
      intro i hi h
      cases i with
      | zero =>
          have hpa : p a = true := (h 0 (by simp)).2 rfl
          have hrest : l.countP p = 0 := by
            rw [List.countP_eq_zero]
            intro x hx
            obtain ⟨⟨j, hj⟩, rfl⟩ := List.mem_iff_get.mp hx
            intro hpx
            have h0 := (h (j + 1) (by simpa using hj)).1 hpx
            omega
          rw [List.countP_cons_of_pos _ _ hpa, hrest]
      | succ i =>
          have hpa : p a = false := by
            cases hq : p a
            · rfl
            · exact absurd ((h 0 (by simp)).1 hq) (by omega)
          rw [List.countP_cons_of_neg _ _ (by simp [hpa])]
          refine ih i (by simpa using hi) ?_
          intro j hj
          exact ((h (j + 1) (by simpa using hj)).trans (by omega))

/-- C1: in a cycle over N registers where exactly one register's read
call fails (an error response) and every other read returns a normal
response, `_poll_once` still publishes exactly N results, one per
register in register-map order: the failing register's entry carries the
transport error and every other entry is Ok-eligible (neither a
transport error nor an exception); exactly one transport error is
published, and no single register's failure aborts the cycle. -/
theorem pollOnce_single_failure (t : Transport) (slaveField : Option Int) (swap : Bool)
    (regs : List RegItem) (i : Nat) (hi : i < regs.length)
    (hfail : ∃ m, respOf t (effectiveSlave slaveField) (regs.get ⟨i, hi⟩) =
      .response true m)
    (hok : ∀ j (hj : j < regs.length), j ≠ i →
      ∃ ws, respOf t (effectiveSlave slaveField) (regs.get ⟨j, hj⟩) =
        .response false ws) :
    (pollOnce t slaveField swap regs).length = regs.length ∧
    (∀ j (hj' : j < (pollOnce t slaveField swap regs).length),
      ((pollOnce t slaveField swap regs).get ⟨j, hj'⟩).1 = j) ∧
    (∀ hi' : i < (pollOnce t slaveField swap regs).length,
      ((pollOnce t slaveField swap regs).get ⟨i, hi'⟩).2 = ValTxt.errTxt) ∧
    (∀ j (hj' : j < (pollOnce t slaveField swap regs).length), j ≠ i →
      ((pollOnce t slaveField swap regs).get ⟨j, hj'⟩).2 ≠ ValTxt.errTxt ∧
      ((pollOnce t slaveField swap regs).get ⟨j, hj'⟩).2 ≠ ValTxt.excTxt) ∧
    (pollOnce t slaveField swap regs).countP (fun p => p.2 == ValTxt.errTxt) = 1 := by
  have hlen := pollOnce_length t slaveField swap regs
  refine ⟨hlen, ?_, ?_, ?_, ?_⟩
  · intro j hj'
    have hj : j < regs.length := by rwa [hlen] at hj'
    show ((pollCells t (effectiveSlave slaveField) swap 0 regs).get ⟨j, hj'⟩).1 = j
    rw [pollCells_get t _ swap regs 0 j hj hj']
    simp
  · intro hi'
    obtain ⟨m, hm⟩ := hfail
    show ((pollCells t (effectiveSlave slaveField) swap 0 regs).get ⟨i, hi'⟩).2 =
      ValTxt.errTxt
    rw [pollCells_get t _ swap regs 0 i hi hi']
    exact pollCell_err t _ swap _ m hm
  · intro j hj' hne
    have hj : j < regs.length := by rwa [hlen] at hj'
    obtain ⟨ws, hws⟩ := hok j hj hne
    show ((pollCells t (effectiveSlave slaveField) swap 0 regs).get ⟨j, hj'⟩).2 ≠
        ValTxt.errTxt ∧
      ((pollCells t (effectiveSlave slaveField) swap 0 regs).get ⟨j, hj'⟩).2 ≠
        ValTxt.excTxt
    rw [pollCells_get t _ swap regs 0 j hj hj']
    exact pollCell_ok t _ swap _ ws hws
  · refine countP_eq_one_of_unique _ _ i (by rwa [hlen]) ?_
    intro j hj'
    have hj : j < regs.length := by rwa [hlen] at hj'
    show (((pollCells t (effectiveSlave slaveField) swap 0 regs).get ⟨j, hj'⟩).2 ==
      ValTxt.errTxt) = true ↔ j = i
    rw [pollCells_get t _ swap regs 0 j hj hj']
    simp only [beq_iff_eq]
    constructor
    · intro hp
      by_contra hne
      exact absurd hp ((hok j hj hne).elim fun ws hws =>
        (pollCell_ok t _ swap _ ws hws).1)
    · intro hji
      subst hji
      obtain ⟨m, hm⟩ := hfail
      exact pollCell_err t _ swap _ m hm

/-- Registers of the single-failure demonstration cycle. -/
def regA : RegItem := { offset := 1, name := "A", unit := "" }

/-- Second register of the single-failure demonstration cycle. -/
def regB : RegItem := { offset := 3, name := "B", unit := "" }

/-- Transport whose input-register read fails at address 0 and succeeds
elsewhere. -/
def failingTransport : Transport :=
  { read_holding_registers := fun _ _ _ => .response false [0, 0],
    read_input_registers := fun a _ _ =>
      if a = 0 then .response true [] else .response false [1, 2] }

/-- Witness for C1: two registers, the first read fails, and exactly one
transport error is published. -/
theorem pollOnce_single_failure_witness :
    (pollOnce failingTransport (some 1) false [regA, regB]).countP
      (fun p => p.2 == ValTxt.errTxt) = 1 :=
  (pollOnce_single_failure failingTransport (some 1) false [regA, regB] 0 (by decide)
    ⟨[], rfl⟩
    (by
      intro j hj hne
      match j, hj with
      | 0, _ => exact absurd rfl hne
      | 1, _ => exact ⟨[1, 2], rfl⟩
      | n + 2, hj => exact absurd hj (by simp))).2.2.2.2

/-- C10: a cycle whose slave-id field does not parse does not fail — it
behaves exactly as a cycle with slave id 1, publishing one result per
register, and every read in it is issued with slave id 1. -/
theorem pollOnce_unparsable_slave_defaults (t : Transport) (swap : Bool)
    (regs : List RegItem) :
    pollOnce t none swap regs = pollOnce t (some 1) swap regs ∧
    (pollOnce t none swap regs).length = regs.length ∧
    (∀ j (hj : j < regs.length) (hj' : j < (pollOnce t none swap regs).length),
      (pollOnce t none swap regs).get ⟨j, hj'⟩ =
        (j, pollCell t 1 swap (regs.get ⟨j, hj⟩))) := by
  refine ⟨rfl, pollOnce_length t none swap regs, ?_⟩
  intro j hj hj'
  show (pollCells t (effectiveSlave none) swap 0 regs).get ⟨j, hj'⟩ =
    (j, pollCell t 1 swap (regs.get ⟨j, hj⟩))
  rw [pollCells_get t _ swap regs 0 j hj hj']
  have hes : effectiveSlave none = 1 := rfl
  rw [hes]
  congr 1
  omega

/-- Witness for C10 at a concrete transport and register list. -/
theorem pollOnce_unparsable_slave_defaults_witness :
    (pollOnce failingTransport none false [regA]).get ⟨0, by decide⟩ =
      (0, pollCell failingTransport 1 false ([regA].get ⟨0, by decide⟩)) :=
  (pollOnce_unparsable_slave_defaults failingTransport false [regA]).2.2 0
    (by decide) (by decide)

/-- C6 counterexample: `_connect` does not check the baud rate against
the supported set — a parse result of 12345, which is in no combobox
entry, passes validation and the transport is opened. -/
theorem connect_opens_with_unsupported_baud :
    connectValidate ['C', 'O', 'M', '3'] (some 12345) (some 1) ['E'] =
      ConnectOutcome.openTransport ['C', 'O', 'M', '3'] 12345 1 ['E'] ∧
    (12345 : Int) ∉ supportedBauds := by
  refine ⟨by decide, by decide⟩

/-- C6 amended: validation fails with a configuration error — and the
transport is never opened — whenever the baud field is unparsable as an
integer (set membership is enforced only by the read-only combobox, not
by `_connect`), the slave id is unparsable or outside 1..247, or the
stripped upper-cased parity is not E, O or N. -/
theorem connectValidate_rejects (portField : List Char)
    (baudField slaveField : Option Int) (parityField : List Char)
    (h : baudField = none ∨ slaveField = none ∨
      (∀ s : Int, slaveField = some s → s < 1 ∨ 247 < s) ∨
      (pyUpper (pyStrip parityField) ≠ ['E'] ∧ pyUpper (pyStrip parityField) ≠ ['O'] ∧
        pyUpper (pyStrip parityField) ≠ ['N'])) :
    ∃ msg, connectValidate portField baudField slaveField parityField =
      ConnectOutcome.configError msg := by
  by_cases hp : pyStrip portField = []
  · exact ⟨"Select a serial port.", by simp [connectValidate, hp]⟩
  · rcases h with hb | hs | hrange | hpar
    · subst hb
      exact ⟨"Invalid settings", by cases slaveField <;> simp [connectValidate, hp]⟩
    · subst hs
      exact ⟨"Invalid settings", by cases baudField <;> simp [connectValidate, hp]⟩
    · cases baudField with
      | none => exact ⟨"Invalid settings", by simp [connectValidate, hp]⟩
      | some baud =>
          cases slaveField with
          | none => exact ⟨"Invalid settings", by simp [connectValidate, hp]⟩
          | some s =>
              have hr := hrange s rfl
              exact ⟨"Invalid settings: Slave ID must be 1..247", by
                simp only [connectValidate]
                rw [if_neg hp, if_neg (by omega)]⟩
    · cases baudField with
      | none => exact ⟨"Invalid settings", by simp [connectValidate, hp]⟩
      | some baud =>
          cases slaveField with
          | none => exact ⟨"Invalid settings", by simp [connectValidate, hp]⟩
          | some s =>
              by_cases hsr : 1 ≤ s ∧ s ≤ 247
              · exact ⟨"Parity must be E, O, or N.", by
                  simp only [connectValidate]
                  rw [if_neg hp, if_pos hsr, if_neg (by tauto)]⟩
              · exact ⟨"Invalid settings: Slave ID must be 1..247", by
                  simp only [connectValidate]
                  rw [if_neg hp, if_neg hsr]⟩

/-- Witness for the amended C6: an unparsable baud field is rejected. -/
theorem connectValidate_rejects_witness :
    ∃ msg, connectValidate ['C', 'O', 'M', '3'] none (some 1) ['E'] =
      ConnectOutcome.configError msg :=
  connectValidate_rejects ['C', 'O', 'M', '3'] none (some 1) ['E'] (Or.inl rfl)

/-- Transport of the decode scenario: input-register reads at address
3052 (offset 3053) for two words return `[0x4248, 0xF5C3]` without
error. -/
def sampleTransport : Transport :=
  { read_holding_registers := fun _ _ _ => .response false [],
    read_input_registers := fun a c _ =>
      if a = 3052 ∧ c = 2 then .response false [0x4248, 0xF5C3]
      else .response true [] }

/-- C7 counterexample: the pair `[0x4248, 0xF5C3]` decoded with
`swap_words = false` reassembles the pattern 0x4248F5C3, whose IEEE-754
single-precision value is 13170115/262144 ≈ 50.24 — more than 0.2 below
the 50.48 the claim states. -/
theorem sample_decode_not_near_50_48 :
    decode_float32 [(0x4248 : Int), 0xF5C3] false = some 0x4248F5C3 ∧
    float32ValueOfBits 0x4248F5C3 = some (13170115 / 262144 : ℚ) ∧
    (13170115 / 262144 : ℚ) + 1 / 5 < 1262 / 25 := by
  refine ⟨rfl, ?_, by norm_num⟩
  norm_num [float32ValueOfBits]

/-- C7 amended: in the scenario cycle the register is published with the
Ok status carrying the pattern 0x4248F5C3, whose IEEE-754 value is
13170115/262144, approximately 50.24 (within 1/100000 of 1256/25). -/
theorem sample_scenario_ok :
    pollOnce sampleTransport (some 1) false [sampleReg] =
      [(0, ValTxt.okTxt 0x4248F5C3)] ∧
    float32ValueOfBits 0x4248F5C3 = some (13170115 / 262144 : ℚ) ∧
    (1256 / 25 : ℚ) < 13170115 / 262144 ∧
    (13170115 / 262144 : ℚ) < 1256 / 25 + 1 / 100000 := by
  refine ⟨rfl, ?_, by norm_num, by norm_num⟩
  norm_num [float32ValueOfBits]

/-- C8 counterexample: `_disconnect` does not block until the background
polling thread has exited — it never joins the thread, only sleeps a
fixed 0.1 s — so immediately after `Stop()` returns the polling loop can
still be active. -/
theorem disconnect_leaves_loop_active :
    (disconnect ⟨true, true, true, true⟩).loopActive = true := rfl

/-- C8 amended: `Stop()` (`_disconnect`) is idempotent — a second call
from any state changes nothing — and leaves the connection closed with
polling signalled off, but it does not wait for the background thread:
the loop exits only at its next top-of-loop check of the polling flag. -/
theorem disconnect_idempotent_closes (s : SessionState) :
    disconnect (disconnect s) = disconnect s ∧
    (disconnect s).clientOpen = false ∧
    (disconnect s).connected = false ∧
    (disconnect s).polling = false ∧
    (loopCheck (disconnect s)).loopActive = false := by
  refine ⟨rfl, rfl, rfl, rfl, ?_⟩
  simp [loopCheck, disconnect]

end EM6400NG
